import Mathlib

/-!
# Billing service: authentication middleware, invoice handlers, data access

A shallow embedding of the Go sources

* `src/helpers/auth_middleware.go`   (`Claims`, `validateToken`, `AuthMiddleware`)
* `src/controllers/invoice_controller.go`
* `src/services/invoice_service.go`
* `src/repositories/invoice_repository.go`
* `src/models/invoice.go`, `src/utils/responses.go`, `src/routes/router.go`

Stateful code is written in explicit state-passing style over a `World`:
the process environment, the `.env` file, the clock, the backing store and
a trace of the calls made so far.  Library code the sources only call
(`database/sql`, `golang-jwt`, `godotenv`, `strconv`, `encoding/json`,
Fiber) appears as small models of the behaviour the sources rely on.
-/

namespace Billing

/-! ## Go values -/

/-- A Go `error` value; `msg` is what the method `Error()` returns. -/
structure Error where
  msg : String
deriving DecidableEq

/-- A `time.Time` instant. -/
structure Time where
  unixNano : Int
deriving DecidableEq

/-- A Go `float64` that holds a finite number, by its exact value (the two zeros are
not told apart).  NaN and the infinities are left out: no JSON number decodes to them
and `encoding/json` does not encode them. -/
structure Float64 where
  value : ℚ
deriving DecidableEq

/-- The comparison `x <= 0` on `float64`. -/
def Float64.leZero (x : Float64) : Bool := decide (x.value ≤ 0)

/-- A Go slice: the nil slice, or a slice with the given elements. -/
inductive Slice (α : Type)
  | nil
  | of (xs : List α)
deriving DecidableEq

/-- The built-in `append(s, x)`. -/
def Slice.append {α : Type} : Slice α → α → Slice α
  | .nil, x => .of [x]
  | .of xs, x => .of (xs ++ [x])

/-- The elements of a slice, in order. -/
def Slice.toList {α : Type} : Slice α → List α
  | .nil => []
  | .of xs => xs

/-- The test `s == nil`. -/
def Slice.isNil {α : Type} : Slice α → Bool
  | .nil => true
  | .of _ => false

/-- The conversion `[]byte(s)`: the bytes of `s` in a freshly made slice, which is
never the nil slice, also for the empty string. -/
def bytesOfString (s : String) : Slice UInt8 := .of (s.data.flatMap String.utf8EncodeChar)

/-- A `context.Context`, by what `ctx.Err()` reports. -/
structure Context where
  Err : Option Error

/-! ## `strconv.Atoi` -/

/-- The digit loop of `strconv.Atoi`: `n = n*10 + int(ch - '0')`, failing on the
first byte that is not a decimal digit. -/
def atoiDigits : List Char → Nat → Option Nat
  | [], n => some n
  | ch :: rest, n => if ch.isDigit then atoiDigits rest (n * 10 + (ch.toNat - 48)) else none

/-- The error `strconv` reports for a string that is not a decimal integer. -/
def atoiInvalid (s : String) : Error := ⟨"strconv.Atoi: parsing " ++ s.quote ++ ": invalid syntax"⟩

/-- The error `strconv` reports for a decimal integer outside the 64-bit `int`. -/
def atoiRange (s : String) : Error := ⟨"strconv.Atoi: parsing " ++ s.quote ++ ": value out of range"⟩

/-- Go's `strconv.Atoi` for a 64-bit `int`: an optional sign, then one or more
decimal digits, with a value in the range of `int`. -/
def Atoi (s : String) : Except Error Int :=
  match s.data with
  | [] => .error (atoiInvalid s)
  | s0 :: tail =>
    let digits := if s0 = '-' ∨ s0 = '+' then tail else s0 :: tail
    if digits = [] then .error (atoiInvalid s)
    else
      match atoiDigits digits 0 with
      | none => .error (atoiInvalid s)
      | some n =>
        let v : Int := if s0 = '-' then -(n : Int) else (n : Int)
        if -(2 : Int) ^ 63 ≤ v ∧ v < (2 : Int) ^ 63 then .ok v else .error (atoiRange s)

/-! ## `models/invoice.go` -/

/-- The struct `models.Invoice`. -/
structure Invoice where
  ID : Int
  UserID : Int
  Amount : Float64
  Description : String
  Status : String
  PaymentMethod : String
  CreatedAt : Time
  UpdatedAt : Time
deriving DecidableEq

/-- The struct `models.CreateInvoiceRequest`. -/
structure CreateInvoiceRequest where
  UserID : Int
  Amount : Float64
  Description : String
  PaymentMethod : String
deriving DecidableEq

/-! ## JSON bodies and `utils/responses.go` -/

/-- The JSON values that occur as members of a response body. -/
inductive JsonValue
  | null
  | bool (b : Bool)
  | string (s : String)
  | invoice (inv : Invoice)
  | invoices (xs : List Invoice)
deriving DecidableEq

/-- A response as the client receives it: the status code and the members of the
JSON object in the body, in the order they are written. -/
structure HttpResponse where
  status : Nat
  body : List (String × JsonValue)
deriving DecidableEq

/-- The member of a JSON object with the given key, if there is one. -/
def HttpResponse.member (r : HttpResponse) (key : String) : Option JsonValue :=
  r.body.lookup key

/-- What a handler puts in the `Data interface{}` field: a `[]models.Invoice`
or a non-nil `*models.Invoice`. -/
inductive Payload
  | invoices (s : Slice Invoice)
  | invoice (p : Invoice)
deriving DecidableEq

/-- How `encoding/json` writes the value held by the `Data` field: a nil slice is
`null`, any other slice an array, a pointer to a struct the object. -/
def Payload.toJSON : Payload → JsonValue
  | .invoices .nil => .null
  | .invoices (.of xs) => .invoices xs
  | .invoice p => .invoice p

/-- The struct `utils.Response`; `Data = none` is the nil interface value. -/
structure Response where
  Success : Bool
  Message : String
  Data : Option Payload
deriving DecidableEq

/-- The encoding `c.JSON(Response{...})` with the struct tags of `Response`:
`success` always, `message` omitted when it is the empty string, `data` omitted
when the interface value is nil. -/
def Response.toJSON (r : Response) : List (String × JsonValue) :=
  [("success", JsonValue.bool r.Success)]
    ++ (if r.Message = "" then [] else [("message", JsonValue.string r.Message)])
    ++ (match r.Data with
        | none => []
        | some d => [("data", d.toJSON)])

def StatusOK : Nat := 200
def StatusCreated : Nat := 201
def StatusBadRequest : Nat := 400
def StatusUnauthorized : Nat := 401
def StatusNotFound : Nat := 404
def StatusInternalServerError : Nat := 500

/-- The function `utils.SuccessResponse`. -/
def SuccessResponse (status : Nat) (data : Payload) : HttpResponse :=
  { status := status, body := Response.toJSON { Success := true, Message := "", Data := some data } }

/-- The function `utils.ErrorResponse`. -/
def ErrorResponse (status : Nat) (message : String) : HttpResponse :=
  { status := status, body := Response.toJSON { Success := false, Message := message, Data := none } }

/-! ## The storage handle (`database/sql`) -/

/-- The three SQL statements the repository issues.

* `selectByID id`: `SELECT id, user_id, amount, description, status, payment_method,
  created_at, updated_at FROM invoices WHERE id = $1`, with `$1 = id`;
* `selectByUserID u`: the same column list, `FROM invoices WHERE user_id = $1`;
* `insertInvoice`: `INSERT INTO invoices (user_id, amount, description, status,
  payment_method, created_at, updated_at) VALUES (...) RETURNING` the same column
  list; the constructor carries the seven entries of the `VALUES` list in order. -/
inductive Statement
  | selectByID (id : Int)
  | selectByUserID (userID : Int)
  | insertInvoice (user_id : Int) (amount : Float64) (description status payment_method : String)
      (created_at updated_at : Time)
deriving DecidableEq

/-- The eight values of one result row, by position in the column list. -/
structure Columns where
  c1 : Int
  c2 : Int
  c3 : Float64
  c4 : String
  c5 : String
  c6 : String
  c7 : Time
  c8 : Time
deriving DecidableEq

/-- One result row as `Scan` meets it: its column values, or the error `Scan`
returns for it (no row, a wrong column count, a value that does not convert). -/
abbrev SqlRow := Except Error Columns

/-- A `*sql.Rows` cursor: the rows for which `rows.Next()` returns true, in the
order they are delivered, and what `rows.Err()` holds once `Next` returns false
(`none` when the result set was read to its end). -/
structure Rows where
  delivered : List SqlRow
  err : Option Error

/-- The `*sql.DB` handle over a store with states `σ`: the two calls the repository
makes.  Each takes the caller's context and returns the next state of the store. -/
structure DB (σ : Type) where
  QueryContext : Context → Statement → σ → Except Error Rows × σ
  QueryRowContext : Context → Statement → σ → SqlRow × σ

/-! ## The world a request runs in -/

/-- The operations of the service layer, as calls. -/
inductive ServiceCall
  | GetInvoiceByID (id : Int)
  | GetInvoicesByUserID (userID : Int)
  | CreateInvoice (req : CreateInvoiceRequest)
deriving DecidableEq

/-- The route handlers of the invoice controller. -/
inductive Handler
  | GetInvoices
  | GetInvoice
  | CreateInvoice
deriving DecidableEq

/-- What the trace records: a line written by package `log`, a route handler being
entered, a call into the service layer, a statement sent to the store. -/
inductive Event
  | log (line : String)
  | handler (h : Handler)
  | service (call : ServiceCall)
  | sql (stmt : Statement)
deriving DecidableEq

/-- The state around a request: the process environment, the result of reading and
parsing the file `.env` (the variables it defines, or the error), the clock, the
store, and the trace of events so far. -/
structure World (σ : Type) where
  env : List (String × String)
  dotenv : Except Error (List (String × String))
  now : Time
  store : σ
  trace : List Event

/-- Append an event to the trace. -/
def World.record {σ : Type} (w : World σ) (e : Event) : World σ :=
  { w with trace := w.trace ++ [e] }

/-! ## `repositories/invoice_repository.go` -/

/-- The struct `repositories.InvoiceRepository`. -/
structure InvoiceRepository (σ : Type) where
  db : DB σ

/-- The call `Scan(&invoice.ID, &invoice.UserID, &invoice.Amount, &invoice.Description,
&invoice.Status, &invoice.PaymentMethod, &invoice.CreatedAt, &invoice.UpdatedAt)`. -/
def scanInvoice (row : SqlRow) : Except Error Invoice :=
  match row with
  | .error err => .error err
  | .ok c =>
    .ok { ID := c.c1, UserID := c.c2, Amount := c.c3, Description := c.c4, Status := c.c5,
          PaymentMethod := c.c6, CreatedAt := c.c7, UpdatedAt := c.c8 }

/-- The method `InvoiceRepository.GetByID`. -/
def InvoiceRepository.GetByID {σ : Type} (r : InvoiceRepository σ) (ctx : Context) (id : Int)
    (w : World σ) : Except Error Invoice × World σ :=
  let query := Statement.selectByID id
  let row := r.db.QueryRowContext ctx query w.store
  (scanInvoice row.1, { w with store := row.2, trace := w.trace ++ [Event.sql query] })

/-- The loop `for rows.Next() { ... rows.Scan(...) ... invoices = append(invoices, invoice) }`
of `GetByUserID`, over the rows the cursor delivers: the first row that fails to scan
ends the call with `nil, err`. -/
def scanRows : List SqlRow → Slice Invoice → Except Error (Slice Invoice)
  | [], invoices => .ok invoices
  | row :: rest, invoices =>
    match scanInvoice row with
    | .error err => .error err
    | .ok invoice => scanRows rest (invoices.append invoice)

/-- The method `InvoiceRepository.GetByUserID`.  The list starts as the nil slice
(`var invoices []models.Invoice`); after the loop the list is returned with a nil
error, and `rows.Err()` is not consulted. -/
def InvoiceRepository.GetByUserID {σ : Type} (r : InvoiceRepository σ) (ctx : Context)
    (userID : Int) (w : World σ) : Except Error (Slice Invoice) × World σ :=
  let query := Statement.selectByUserID userID
  let res := r.db.QueryContext ctx query w.store
  let w1 : World σ := { w with store := res.2, trace := w.trace ++ [Event.sql query] }
  match res.1 with
  | .error err => (.error err, w1)
  | .ok rows => (scanRows rows.delivered Slice.nil, w1)

/-- The method `InvoiceRepository.Create`; `now := time.Now()` reads the clock.  The
statement is the one with `VALUES ($1, $2, $3, 'pending', $4, $5, $5)`, bound to
`invoice.UserID, invoice.Amount, invoice.Description, invoice.PaymentMethod, now`. -/
def InvoiceRepository.Create {σ : Type} (r : InvoiceRepository σ) (ctx : Context)
    (invoice : CreateInvoiceRequest) (w : World σ) : Except Error Invoice × World σ :=
  let now := w.now
  let query := Statement.insertInvoice invoice.UserID invoice.Amount invoice.Description
    "pending" invoice.PaymentMethod now now
  let row := r.db.QueryRowContext ctx query w.store
  (scanInvoice row.1, { w with store := row.2, trace := w.trace ++ [Event.sql query] })

/-! ## `services/invoice_service.go` -/

/-- The struct `services.InvoiceService`. -/
structure InvoiceService (σ : Type) where
  repo : InvoiceRepository σ

/-- The method `InvoiceService.GetInvoiceByID`. -/
def InvoiceService.GetInvoiceByID {σ : Type} (s : InvoiceService σ) (ctx : Context) (id : Int)
    (w : World σ) : Except Error Invoice × World σ :=
  s.repo.GetByID ctx id (w.record (Event.service (ServiceCall.GetInvoiceByID id)))

/-- The method `InvoiceService.GetInvoicesByUserID`. -/
def InvoiceService.GetInvoicesByUserID {σ : Type} (s : InvoiceService σ) (ctx : Context)
    (userID : Int) (w : World σ) : Except Error (Slice Invoice) × World σ :=
  s.repo.GetByUserID ctx userID (w.record (Event.service (ServiceCall.GetInvoicesByUserID userID)))

/-- The method `InvoiceService.CreateInvoice`. -/
def InvoiceService.CreateInvoice {σ : Type} (s : InvoiceService σ) (ctx : Context)
    (req : CreateInvoiceRequest) (w : World σ) : Except Error Invoice × World σ :=
  s.repo.Create ctx req (w.record (Event.service (ServiceCall.CreateInvoice req)))

/-! ## `controllers/invoice_controller.go` -/

/-- The parts of a `*fiber.Ctx` the sources use: request headers (`Get`), query
parameters (`Query`), route parameters (`Params`), the outcome of `BodyParser` on the
request body, the request context (`Context`), and the request-local values
(`Locals`). -/
structure FiberCtx where
  Get : String → String
  Query : String → String
  Params : String → String
  BodyParser : Except Error CreateInvoiceRequest
  Context : Context
  locals : List (String × String)

/-- The call `c.Locals(key, value)`, which sets a request-local value. -/
def FiberCtx.Locals (c : FiberCtx) (key value : String) : FiberCtx :=
  { c with locals := (key, value) :: c.locals.filter (fun kv => kv.1 ≠ key) }

/-- The struct `controllers.InvoiceController`. -/
structure InvoiceController (σ : Type) where
  service : InvoiceService σ

/-- The method `InvoiceController.GetInvoices`. -/
def InvoiceController.GetInvoices {σ : Type} (c : InvoiceController σ) (ctx : FiberCtx)
    (w : World σ) : HttpResponse × World σ :=
  match Atoi (ctx.Query "user_id") with
  | .error _ => (ErrorResponse StatusBadRequest "Invalid user ID", w)
  | .ok userID =>
    let res := c.service.GetInvoicesByUserID ctx.Context userID w
    match res.1 with
    | .error err => (ErrorResponse StatusInternalServerError err.msg, res.2)
    | .ok invoices => (SuccessResponse StatusOK (Payload.invoices invoices), res.2)

/-- The method `InvoiceController.GetInvoice`. -/
def InvoiceController.GetInvoice {σ : Type} (c : InvoiceController σ) (ctx : FiberCtx)
    (w : World σ) : HttpResponse × World σ :=
  match Atoi (ctx.Params "id") with
  | .error _ => (ErrorResponse StatusBadRequest "Invalid invoice ID", w)
  | .ok id =>
    let res := c.service.GetInvoiceByID ctx.Context id w
    match res.1 with
    | .error _ => (ErrorResponse StatusNotFound "Invoice not found", res.2)
    | .ok invoice => (SuccessResponse StatusOK (Payload.invoice invoice), res.2)

/-- The condition `req.UserID == 0 || req.Amount <= 0 || req.Description == "" ||
req.PaymentMethod == ""` of `CreateInvoice`. -/
def missingRequiredFields (req : CreateInvoiceRequest) : Bool :=
  req.UserID == 0 || req.Amount.leZero || req.Description == "" || req.PaymentMethod == ""

/-- The method `InvoiceController.CreateInvoice`. -/
def InvoiceController.CreateInvoice {σ : Type} (c : InvoiceController σ) (ctx : FiberCtx)
    (w : World σ) : HttpResponse × World σ :=
  match ctx.BodyParser with
  | .error _ => (ErrorResponse StatusBadRequest "Invalid request body", w)
  | .ok req =>
    if missingRequiredFields req then
      (ErrorResponse StatusBadRequest "Missing required fields", w)
    else
      let res := c.service.CreateInvoice ctx.Context req w
      match res.1 with
      | .error err => (ErrorResponse StatusInternalServerError err.msg, res.2)
      | .ok invoice => (SuccessResponse StatusCreated (Payload.invoice invoice), res.2)

/-! ## `helpers/auth_middleware.go` -/

/-- The registered claims of `jwt.RegisteredClaims` (`iss`, `sub`, `aud`, `exp`,
`nbf`, `iat`, `jti`). -/
structure RegisteredClaims where
  Issuer : String
  Subject : String
  Audience : List String
  ExpiresAt : Option Time
  NotBefore : Option Time
  IssuedAt : Option Time
  ID : String
deriving DecidableEq

/-- The struct `Claims`: the field `useranme` with tag `json:"username"`, and the
embedded `jwt.RegisteredClaims`. -/
structure Claims where
  useranme : String
  registered : RegisteredClaims
deriving DecidableEq

/-- A field of a Go struct as `encoding/json` sees it: its Go name and the key of
its `json` tag. -/
structure StructField where
  name : String
  key : String

/-- Whether a Go identifier is exported: its first letter is upper case. -/
def StructField.exported (f : StructField) : Bool :=
  match f.name.data with
  | [] => false
  | ch :: _ => ch.isUpper

/-- How `encoding/json` fills a string field of a struct from a JSON object: fields
that are not exported are skipped and keep their zero value; an exported field takes
the string under its key, if there is one. -/
def unmarshalStringField (f : StructField) (object : List (String × JsonValue)) : String :=
  if f.exported then
    match object.lookup f.key with
    | some (JsonValue.string s) => s
    | _ => ""
  else ""

/-- The field `useranme string` with tag `json:"username"` of `Claims`. -/
def Claims.useranmeField : StructField := { name := "useranme", key := "username" }

/-- What the JWT library finds in a token it accepts for a key: the members of the
payload object, the registered claims it decoded and validated, and the `Valid`
flag of the resulting `*jwt.Token`. -/
structure VerifiedToken where
  payload : List (String × JsonValue)
  registered : RegisteredClaims
  Valid : Bool

/-- The JWT library (`github.com/golang-jwt/jwt/v5`): segment decoding, signature
verification with the key the key function returns, and validation of the registered
claims.  An error stands for any token it does not accept. -/
structure JwtLib where
  verify : String → Slice UInt8 → Except Error VerifiedToken

/-- A `*jwt.Token` whose `Claims` field holds the `*Claims` passed to
`ParseWithClaims`. -/
structure Token where
  Claims : Claims
  Valid : Bool

/-- The call `jwt.ParseWithClaims(tokenString, &Claims{}, keyFunc)` with a key function
returning `jwtSecret`: the payload is decoded into the `Claims` struct. -/
def ParseWithClaims (jwt : JwtLib) (tokenString : String) (jwtSecret : Slice UInt8) :
    Except Error Token :=
  match jwt.verify tokenString jwtSecret with
  | .error err => .error err
  | .ok t =>
    .ok { Claims := { useranme := unmarshalStringField Claims.useranmeField t.payload,
                      registered := t.registered },
          Valid := t.Valid }

/-- The function `validateToken`. -/
def validateToken (jwt : JwtLib) (tokenString : String) (jwtSecret : Slice UInt8) :
    Except Error Claims :=
  match ParseWithClaims jwt tokenString jwtSecret with
  | .error err => .error ⟨"error parsing token: " ++ err.msg⟩
  | .ok token =>
    if token.Valid then .ok token.Claims else .error ⟨"invalid token"⟩

/-- The function `os.Getenv`: the value of the variable, or the empty string when
it is not set. -/
def Getenv (env : List (String × String)) (key : String) : String :=
  (env.lookup key).getD ""

/-- The effect of a successful `godotenv.Load(".env")` on the process environment:
every variable of the file that is not set yet is set; variables already set keep
their value. -/
def godotenvLoad (file env : List (String × String)) : List (String × String) :=
  env ++ file.filter (fun kv => (env.lookup kv.1).isNone)

/-- How a middleware or handler ends for the request: a response is written, or the
process is terminated (`log.Fatal` calls `os.Exit(1)`) and no response is written. -/
inductive Outcome
  | respond (r : HttpResponse)
  | exit (code : Nat)
deriving DecidableEq

/-- The body `fiber.Map{"error": message}`. -/
def errorMap (message : String) : List (String × JsonValue) :=
  [("error", JsonValue.string message)]

/-- The function `AuthMiddleware`; `next` is `c.Next()`, the rest of the route's
handler chain.  `log.Fatal` writes its line and ends the process, so the `return`
statements that follow it are never reached. -/
def AuthMiddleware {σ : Type} (jwt : JwtLib) (c : FiberCtx)
    (next : FiberCtx → World σ → Outcome × World σ) (w : World σ) : Outcome × World σ :=
  match w.dotenv with
  | .error _ => (Outcome.exit 1, w.record (Event.log "Error loading .env file"))
  | .ok file =>
    let w1 : World σ := { w with env := godotenvLoad file w.env }
    let jwtSecret := bytesOfString (Getenv w1.env (Getenv w1.env "JWT_SECRET"))
    if jwtSecret.isNil then
      (Outcome.exit 1, w1.record (Event.log "JWT_SECRET not set in .env file"))
    else
      let tokenString := c.Get "Authorization"
      if tokenString = "" then
        (Outcome.respond
          { status := StatusUnauthorized, body := errorMap "Authorization header is required" }, w1)
      else
        match validateToken jwt tokenString jwtSecret with
        | .error err =>
          (Outcome.respond
            { status := StatusUnauthorized, body := errorMap ("Invalid token: " ++ err.msg) }, w1)
        | .ok claims =>
          next (c.Locals "user" claims.useranme)
            (w1.record (Event.log ("User authenticated: " ++ claims.useranme)))

/-! ## `routes/router.go` -/

/-- The three routes registered under the group `/invoices`. -/
inductive Route
  | getInvoices
  | postInvoices
  | getInvoiceByID
deriving DecidableEq

/-- The handler a route ends in. -/
def Route.handler : Route → Handler
  | .getInvoices => Handler.GetInvoices
  | .postInvoices => Handler.CreateInvoice
  | .getInvoiceByID => Handler.GetInvoice

/-- The controller method behind a handler. -/
def InvoiceController.run {σ : Type} (ic : InvoiceController σ) :
    Handler → FiberCtx → World σ → HttpResponse × World σ
  | .GetInvoices => ic.GetInvoices
  | .GetInvoice => ic.GetInvoice
  | .CreateInvoice => ic.CreateInvoice

/-- The last element of a route's chain: the controller method is entered (which
the trace records) and its response ends the request. -/
def handlerStep {σ : Type} (ic : InvoiceController σ) (h : Handler) (c : FiberCtx)
    (w : World σ) : Outcome × World σ :=
  let res := ic.run h c (w.record (Event.handler h))
  (Outcome.respond res.1, res.2)

/-- The function `SetupRoutes`: each of `invoices.Get("/", ...)`, `invoices.Post("/", ...)`
and `invoices.Get("/:id", ...)` registers the chain `helpers.AuthMiddleware` followed by
the controller method. -/
def SetupRoutes {σ : Type} (jwt : JwtLib) (invoiceController : InvoiceController σ)
    (route : Route) (c : FiberCtx) (w : World σ) : Outcome × World σ :=
  AuthMiddleware jwt c (handlerStep invoiceController route.handler) w

/-! ## A store that holds a table of invoices -/

/-- A row of the table `invoices`, by column name. -/
structure StoredRow where
  id : Int
  user_id : Int
  amount : Float64
  description : String
  status : String
  payment_method : String
  created_at : Time
  updated_at : Time
deriving DecidableEq

/-- A state of the store: the rows of `invoices` in the order the store returns them,
and the next value of the sequence behind the `id` column. -/
structure Table where
  rows : List StoredRow
  nextID : Int
deriving DecidableEq

/-- The column list `id, user_id, amount, description, status, payment_method,
created_at, updated_at` of all three statements, applied to a row. -/
def selectColumns (r : StoredRow) : Columns :=
  { c1 := r.id, c2 := r.user_id, c3 := r.amount, c4 := r.description, c5 := r.status,
    c6 := r.payment_method, c7 := r.created_at, c8 := r.updated_at }

/-- The error `sql.ErrNoRows`. -/
def ErrNoRows : Error := ⟨"sql: no rows in result set"⟩

/-- The error the store reports for an insert whose identifier is already taken. -/
def ErrDuplicateKey : Error :=
  ⟨"pq: duplicate key value violates unique constraint"⟩

/-- Modelled from the spec: the table `invoices` is not declared in the sources, and the
data model gives its identifier as server-assigned and unique.  The result set of a
statement on a table state, and the state after it: the two selects filter the rows
and leave the state alone; the insert draws the next value of the sequence as
identifier, adds the row at the end and returns it, and is refused (nothing added)
when a row already carries that identifier. -/
def Table.exec (t : Table) : Statement → Except Error (List StoredRow) × Table
  | .selectByID id => (.ok (t.rows.filter (fun r => r.id = id)), t)
  | .selectByUserID userID => (.ok (t.rows.filter (fun r => r.user_id = userID)), t)
  | .insertInvoice user_id amount description status payment_method created_at updated_at =>
    let row : StoredRow :=
      { id := t.nextID, user_id := user_id, amount := amount, description := description,
        status := status, payment_method := payment_method, created_at := created_at,
        updated_at := updated_at }
    if t.rows.any (fun r => r.id = t.nextID) then
      (.error ErrDuplicateKey, { t with nextID := t.nextID + 1 })
    else
      (.ok [row], { rows := t.rows ++ [row], nextID := t.nextID + 1 })

/-- A storage handle on a store that is up and answers every statement: `QueryContext`
delivers the whole result set, `QueryRowContext` its first row, or `sql.ErrNoRows`
when the result set is empty; an error of the statement is handed on. -/
def tableDB : DB Table where
  QueryContext := fun _ stmt t =>
    let res := t.exec stmt
    (match res.1 with
     | .error err => .error err
     | .ok rows =>
       .ok { delivered := rows.map (fun r => Except.ok (selectColumns r)), err := none },
     res.2)
  QueryRowContext := fun _ stmt t =>
    let res := t.exec stmt
    (match res.1 with
     | .error err => .error err
     | .ok [] => .error ErrNoRows
     | .ok (r :: _) => .ok (selectColumns r),
     res.2)

/-- The controller wired as in `main.go`: repository over the handle, service over
the repository, controller over the service. -/
def controllerOver {σ : Type} (db : DB σ) : InvoiceController σ :=
  { service := { repo := { db := db } } }

/-! ## Inputs used in the closed statements below -/

/-- A request context with the given `Authorization` header, `user_id` query value
and `id` route parameter, and a body that does not parse. -/
def requestWith (authorization userID id : String) : FiberCtx :=
  { Get := fun k => if k = "Authorization" then authorization else ""
    Query := fun k => if k = "user_id" then userID else ""
    Params := fun k => if k = "id" then id else ""
    BodyParser := .error ⟨"unexpected end of JSON input"⟩
    Context := { Err := none }
    locals := [] }

/-- The empty table. -/
def emptyTable : Table := { rows := [], nextID := 1 }

/-- A world in which the file `.env` cannot be read. -/
def worldWithoutDotenv : World Table :=
  { env := [], dotenv := .error ⟨"open .env: no such file or directory"⟩, now := ⟨0⟩,
    store := emptyTable, trace := [] }

/-- A world whose `.env` file defines the given variables, with nothing else set. -/
def worldWithDotenv (file : List (String × String)) (store : Table) : World Table :=
  { env := [], dotenv := .ok file, now := ⟨0⟩, store := store, trace := [] }

/-- Registered claims with nothing set. -/
def noRegisteredClaims : RegisteredClaims :=
  { Issuer := "", Subject := "", Audience := [], ExpiresAt := none, NotBefore := none,
    IssuedAt := none, ID := "" }

/-- A JWT library state in which exactly one token verifies, under exactly one key,
with the given payload. -/
def jwtAccepting (token : String) (key : Slice UInt8) (payload : List (String × JsonValue)) :
    JwtLib :=
  { verify := fun tokenString k =>
      if tokenString = token ∧ k = key then
        .ok { payload := payload, registered := noRegisteredClaims, Valid := true }
      else .error ⟨"token signature is invalid"⟩ }

/-- A next handler that answers with the request-local value stored under `user`. -/
def echoUser (c : FiberCtx) (w : World Table) : Outcome × World Table :=
  (Outcome.respond { status := StatusOK, body := [("user", JsonValue.string ((c.locals.lookup "user").getD "(unset)"))] }, w)

/-- A request context like `c`, with the query parameter `user_id` set to `value`. -/
def FiberCtx.withUserIDQuery (c : FiberCtx) (value : String) : FiberCtx :=
  { c with Query := fun k => if k = "user_id" then value else c.Query k }

/-- A request context like `c`, with the route parameter `id` set to `value`. -/
def FiberCtx.withIDParam (c : FiberCtx) (value : String) : FiberCtx :=
  { c with Params := fun k => if k = "id" then value else c.Params k }

/-- A request context whose body parses to `req`. -/
def requestWithBody (req : CreateInvoiceRequest) : FiberCtx :=
  { requestWith "" "" "" with BodyParser := .ok req }

/-- The invoice record that carries the eight columns of a stored row unchanged. -/
def StoredRow.toInvoice (r : StoredRow) : Invoice :=
  { ID := r.id, UserID := r.user_id, Amount := r.amount, Description := r.description,
    Status := r.status, PaymentMethod := r.payment_method, CreatedAt := r.created_at,
    UpdatedAt := r.updated_at }

/-- A world over the store that is down. -/
def downWorld : World Unit :=
  { env := [], dotenv := .ok [], now := ⟨0⟩, store := (), trace := [] }

/-- A table with three invoices, two of them of user 123. -/
def sampleTable : Table :=
  { rows :=
      [ { id := 1, user_id := 123, amount := ⟨201 / 2⟩, description := "Invoice 1",
          status := "pending", payment_method := "credit_card", created_at := ⟨10⟩,
          updated_at := ⟨10⟩ },
        { id := 2, user_id := 7, amount := ⟨5⟩, description := "Other",
          status := "paid", payment_method := "cash", created_at := ⟨20⟩, updated_at := ⟨25⟩ },
        { id := 3, user_id := 123, amount := ⟨803 / 4⟩, description := "Invoice 2",
          status := "paid", payment_method := "paypal", created_at := ⟨30⟩,
          updated_at := ⟨30⟩ } ]
    nextID := 4 }

/-- A creation request with all four fields in order. -/
def sampleRequest : CreateInvoiceRequest :=
  { UserID := 123, Amount := ⟨201 / 2⟩, Description := "Test invoice",
    PaymentMethod := "credit_card" }

/-- The uniform envelope, as a property of a response: the body has a boolean member
`success`, a member `data` whenever `success` is true, and a member `message`
whenever `success` is false. -/
def IsEnvelope (r : HttpResponse) : Prop :=
  ∃ b : Bool, r.member "success" = some (JsonValue.bool b) ∧
    (b = true → ∃ d, r.member "data" = some d) ∧
    (b = false → ∃ m, r.member "message" = some (JsonValue.string m))

/-- The envelope of a failure whose message is the empty string: `omitempty` leaves the
member `message` out, and `success` (false) is the only member. -/
def IsBareFailure (r : HttpResponse) : Prop :=
  r.body = [("success", JsonValue.bool false)]

/-- The row the store creates for a request at a given clock reading, under a given
identifier. -/
def createdRow (id : Int) (req : CreateInvoiceRequest) (now : Time) : StoredRow :=
  { id := id, user_id := req.UserID, amount := req.Amount, description := req.Description,
    status := "pending", payment_method := req.PaymentMethod, created_at := now,
    updated_at := now }

/-- The columns of invoice 1 of the sample table. -/
def sampleColumns : Columns :=
  { c1 := 1, c2 := 123, c3 := ⟨201 / 2⟩, c4 := "Invoice 1", c5 := "pending",
    c6 := "credit_card", c7 := ⟨10⟩, c8 := ⟨10⟩ }

/-- A storage handle whose cursor delivers one row of user 123 and then stops early:
`rows.Next()` returns false because the context was cancelled, and `rows.Err()` holds
that error. -/
def interruptedDB : DB Unit where
  QueryContext := fun _ _ st =>
    (.ok { delivered := [Except.ok sampleColumns], err := some ⟨"context canceled"⟩ }, st)
  QueryRowContext := fun _ _ st => (.error ⟨"context canceled"⟩, st)

/-- A storage handle on a store whose every call fails with an error that has the
empty message. -/
def silentDB : DB Unit where
  QueryContext := fun _ _ st => (.error ⟨""⟩, st)
  QueryRowContext := fun _ _ st => (.error ⟨""⟩, st)

/-! ## The authentication middleware -/

/-- The username `validateToken` returns is the empty string for every token it
accepts: the field `useranme` is not exported, so decoding never fills it. -/
theorem validateToken_useranme (jwt : JwtLib) (tokenString : String) (jwtSecret : Slice UInt8)
    (claims : Claims) (h : validateToken jwt tokenString jwtSecret = .ok claims) :
    claims.useranme = "" := by
  unfold validateToken ParseWithClaims at h
  cases hv : jwt.verify tokenString jwtSecret with
  | error err => simp [hv] at h
  | ok t =>
    simp only [hv] at h
    split at h
    · cases h
      rfl
    · cases h

/-- The secret `AuthMiddleware` computes is never the nil slice. -/
theorem bytesOfString_not_nil (s : String) : (bytesOfString s).isNil = false := rfl

/-- When the file `.env` loads, `AuthMiddleware` has three ways to end: 401 for an
empty header, 401 for a token `validateToken` rejects, and otherwise the next handler,
called with the request-local `user` set. -/
theorem AuthMiddleware_loaded {σ : Type} (jwt : JwtLib) (c : FiberCtx)
    (next : FiberCtx → World σ → Outcome × World σ) (w : World σ)
    (file : List (String × String)) (hfile : w.dotenv = .ok file) :
    AuthMiddleware jwt c next w =
      let w1 : World σ := { w with env := godotenvLoad file w.env }
      let jwtSecret := bytesOfString (Getenv w1.env (Getenv w1.env "JWT_SECRET"))
      if c.Get "Authorization" = "" then
        (Outcome.respond
          { status := StatusUnauthorized, body := errorMap "Authorization header is required" }, w1)
      else
        match validateToken jwt (c.Get "Authorization") jwtSecret with
        | .error err =>
          (Outcome.respond
            { status := StatusUnauthorized, body := errorMap ("Invalid token: " ++ err.msg) }, w1)
        | .ok claims =>
          next (c.Locals "user" claims.useranme)
            (w1.record (Event.log ("User authenticated: " ++ claims.useranme))) := by
  simp only [AuthMiddleware, hfile, bytesOfString_not_nil]
  rfl

/-- When the file `.env` does not load, `AuthMiddleware` ends the process. -/
theorem AuthMiddleware_not_loaded {σ : Type} (jwt : JwtLib) (c : FiberCtx)
    (next : FiberCtx → World σ → Outcome × World σ) (w : World σ)
    (err : Error) (hfile : w.dotenv = .error err) :
    AuthMiddleware jwt c next w
      = (Outcome.exit 1, w.record (Event.log "Error loading .env file")) := by
  simp only [AuthMiddleware, hfile]

/-- The guard in front of the three routes.  Either the file `.env` loads, the header is not
empty and `validateToken` accepts it with the resolved secret, and the route continues
with the controller method; or nothing behind the guard is reached: the store is as
before and the trace gains at most the line logged when `.env` does not load. -/
theorem SetupRoutes_guard {σ : Type} (jwt : JwtLib) (ic : InvoiceController σ) (route : Route)
    (c : FiberCtx) (w : World σ) :
    (∃ file claims,
        w.dotenv = .ok file ∧ c.Get "Authorization" ≠ "" ∧
        validateToken jwt (c.Get "Authorization")
          (bytesOfString (Getenv (godotenvLoad file w.env)
            (Getenv (godotenvLoad file w.env) "JWT_SECRET"))) = .ok claims ∧
        SetupRoutes jwt ic route c w =
          handlerStep ic route.handler (c.Locals "user" claims.useranme)
            (World.record { w with env := godotenvLoad file w.env }
              (Event.log ("User authenticated: " ++ claims.useranme)))) ∨
    ((SetupRoutes jwt ic route c w).2.store = w.store ∧
      ((SetupRoutes jwt ic route c w).2.trace = w.trace ∨
        (SetupRoutes jwt ic route c w).2.trace
          = w.trace ++ [Event.log "Error loading .env file"])) := by
  have hdotenv : (∃ err, w.dotenv = .error err) ∨ (∃ file, w.dotenv = .ok file) := by
    cases w.dotenv with
    | error err => exact Or.inl ⟨err, rfl⟩
    | ok file => exact Or.inr ⟨file, rfl⟩
  unfold SetupRoutes
  rcases hdotenv with ⟨err, hfile⟩ | ⟨file, hfile⟩
  · right
    rw [AuthMiddleware_not_loaded jwt c _ w err hfile]
    exact ⟨rfl, Or.inr rfl⟩
  · have hloaded := AuthMiddleware_loaded jwt c (handlerStep ic route.handler) w file hfile
    by_cases hheader : c.Get "Authorization" = ""
    · right
      simp only [hheader, if_true] at hloaded
      rw [hloaded]
      exact ⟨rfl, Or.inl rfl⟩
    · have hvalidate : (∃ err, validateToken jwt (c.Get "Authorization")
          (bytesOfString (Getenv (godotenvLoad file w.env)
            (Getenv (godotenvLoad file w.env) "JWT_SECRET"))) = .error err) ∨
          (∃ claims, validateToken jwt (c.Get "Authorization")
          (bytesOfString (Getenv (godotenvLoad file w.env)
            (Getenv (godotenvLoad file w.env) "JWT_SECRET"))) = .ok claims) := by
        cases validateToken jwt (c.Get "Authorization")
          (bytesOfString (Getenv (godotenvLoad file w.env)
            (Getenv (godotenvLoad file w.env) "JWT_SECRET"))) with
        | error err => exact Or.inl ⟨err, rfl⟩
        | ok claims => exact Or.inr ⟨claims, rfl⟩
      rcases hvalidate with ⟨err, hv⟩ | ⟨claims, hv⟩
      · right
        simp only [hheader, if_false, hv] at hloaded
        rw [hloaded]
        exact ⟨rfl, Or.inl rfl⟩
      · left
        simp only [hheader, if_false, hv] at hloaded
        exact ⟨file, claims, hfile, hheader, hv, hloaded⟩

/-- C1 (evaluated where it fails): a request to `POST /invoices` whose token the library
rejects, in a process whose `.env` file cannot be read.  `AuthMiddleware` does not call
the next handler, and it does not answer either: `log.Fatal` ends the process with
exit code 1 before any response is written, and the trace holds nothing but the line
it logged. -/
theorem C1_dotenv_failure_ends_process :
    SetupRoutes (jwtAccepting "good" (bytesOfString "s3cret") []) (controllerOver tableDB)
        Route.postInvoices (requestWith "bad" "" "") worldWithoutDotenv
      = (Outcome.exit 1, worldWithoutDotenv.record (Event.log "Error loading .env file")) :=
  rfl

/-- C2 (as stated, refuted): a request to `GET /invoices` without an `Authorization`
header, in a process whose `.env` file cannot be read, is not answered with 401: the
process ends with exit code 1. -/
theorem C2_counterexample :
    (requestWith "" "1" "").Get "Authorization" = "" ∧
    (SetupRoutes (jwtAccepting "good" (bytesOfString "s3cret") []) (controllerOver tableDB)
        Route.getInvoices (requestWith "" "1" "") worldWithoutDotenv).1 = Outcome.exit 1 :=
  ⟨rfl, rfl⟩

/-- C2 (amended): whenever the file `.env` loads, a request to any invoice route that
carries no `Authorization` header is answered by `AuthMiddleware` with status 401 and
the message "Authorization header is required", whatever the route and whatever the
variables of the environment; no handler runs and the store is not touched. -/
theorem C2_missing_header_unauthorized {σ : Type} (jwt : JwtLib) (ic : InvoiceController σ)
    (route : Route) (c : FiberCtx) (w : World σ) (file : List (String × String))
    (hfile : w.dotenv = .ok file) (hheader : c.Get "Authorization" = "") :
    SetupRoutes jwt ic route c w =
      (Outcome.respond
        { status := 401, body := [("error", JsonValue.string "Authorization header is required")] },
       { w with env := godotenvLoad file w.env }) := by
  unfold SetupRoutes
  rw [AuthMiddleware_loaded jwt c _ w file hfile]
  simp only [hheader, if_true]
  rfl

/-- Witness for C2 (amended): `GET /invoices/1` without a header, with an empty `.env`. -/
theorem C2_missing_header_unauthorized_witness :
    (worldWithDotenv [] emptyTable).dotenv = .ok [] ∧
    (requestWith "" "" "1").Get "Authorization" = "" ∧
    SetupRoutes (jwtAccepting "good" (bytesOfString "s3cret") []) (controllerOver tableDB)
        Route.getInvoiceByID (requestWith "" "" "1") (worldWithDotenv [] emptyTable) =
      (Outcome.respond
        { status := 401, body := [("error", JsonValue.string "Authorization header is required")] },
       { worldWithDotenv [] emptyTable with env := godotenvLoad [] [] }) :=
  ⟨rfl, rfl,
   C2_missing_header_unauthorized (jwtAccepting "good" (bytesOfString "s3cret") [])
     (controllerOver tableDB) Route.getInvoiceByID (requestWith "" "" "1")
     (worldWithDotenv [] emptyTable) [] rfl rfl⟩

/-- C3 (evaluated where it fails): the `.env` file loads but `JWT_SECRET` is not set,
so the lookup `os.Getenv(os.Getenv("JWT_SECRET"))` yields the empty string.  The test
`jwtSecret == nil` does not fire on the (non-nil, empty) slice; the token is validated
with the empty key, and a token that verifies under the empty key is let through to
`GET /invoices`: the answer is the handler's 200, not a 500, and the trace shows the
handler, the service and the store being reached. -/
theorem C3_empty_secret_is_used :
    Getenv (godotenvLoad [] []) (Getenv (godotenvLoad [] []) "JWT_SECRET") = "" ∧
    (SetupRoutes (jwtAccepting "forged" (bytesOfString "") []) (controllerOver tableDB)
        Route.getInvoices (requestWith "forged" "7" "") (worldWithDotenv [] emptyTable)).1
      = Outcome.respond
          { status := 200, body := [("success", JsonValue.bool true), ("data", JsonValue.null)] } ∧
    (SetupRoutes (jwtAccepting "forged" (bytesOfString "") []) (controllerOver tableDB)
        Route.getInvoices (requestWith "forged" "7" "") (worldWithDotenv [] emptyTable)).2.trace
      = [Event.log "User authenticated: ", Event.handler Handler.GetInvoices,
         Event.service (ServiceCall.GetInvoicesByUserID 7),
         Event.sql (Statement.selectByUserID 7)] :=
  ⟨rfl, rfl, rfl⟩

/-- C4 (evaluated where it fails): a token that `validateToken` accepts and whose payload
has the username claim "alice".  The identity stored under the request-local key `user`
when the next handler is called is the empty string, not "alice". -/
theorem C4_stored_user_is_empty :
    validateToken (jwtAccepting "tok" (bytesOfString "s3cret") [("username", JsonValue.string "alice")])
        "tok" (bytesOfString "s3cret")
      = .ok { useranme := "", registered := noRegisteredClaims } ∧
    (AuthMiddleware (jwtAccepting "tok" (bytesOfString "s3cret") [("username", JsonValue.string "alice")])
        (requestWith "tok" "" "") echoUser
        (worldWithDotenv [("JWT_SECRET", "SIGNING_KEY"), ("SIGNING_KEY", "s3cret")] emptyTable)).1
      = Outcome.respond { status := 200, body := [("user", JsonValue.string "")] } :=
  ⟨rfl, rfl⟩

/-! ## The invoice handlers -/

/-- The condition of `CreateInvoice` on the parsed request, spelled out. -/
theorem missingRequiredFields_iff (req : CreateInvoiceRequest) :
    missingRequiredFields req = true ↔
      (req.UserID = 0 ∨ req.Amount.leZero = true ∨ req.Description = "" ∨
        req.PaymentMethod = "") := by
  simp [missingRequiredFields, or_assoc]

/-- What a call of the service's `CreateInvoice` adds to the trace. -/
theorem CreateInvoice_service_trace {σ : Type} (s : InvoiceService σ) (ctx : Context)
    (req : CreateInvoiceRequest) (w : World σ) :
    (s.CreateInvoice ctx req w).2.trace =
      w.trace ++ [Event.service (ServiceCall.CreateInvoice req),
        Event.sql (Statement.insertInvoice req.UserID req.Amount req.Description "pending"
          req.PaymentMethod w.now w.now)] := by
  simp [InvoiceService.CreateInvoice, InvoiceRepository.Create, World.record]

/-- The world `CreateInvoice` returns for a request that passes the field check is
the one the service call returns. -/
theorem CreateInvoice_world {σ : Type} (c : InvoiceController σ) (ctx : FiberCtx) (w : World σ)
    (req : CreateInvoiceRequest) (hparse : ctx.BodyParser = .ok req)
    (hfields : missingRequiredFields req = false) :
    (c.CreateInvoice ctx w).2 = (c.service.CreateInvoice ctx.Context req w).2 := by
  simp only [InvoiceController.CreateInvoice, hparse, hfields]
  cases (c.service.CreateInvoice ctx.Context req w).1 <;> rfl

/-- C5: for a body that parses to `req`, `CreateInvoice` answers 400 "Missing required
fields" without any call of the service (the trace is unchanged) if and only if
`user_id == 0`, `amount <= 0`, `description == ""` or `payment_method == ""`; otherwise
the trace gains exactly one call of the service's `CreateInvoice`, with the parsed
request, followed by the one statement that call sends to the store. -/
theorem C5_required_fields {σ : Type} (c : InvoiceController σ) (ctx : FiberCtx) (w : World σ)
    (req : CreateInvoiceRequest) (hparse : ctx.BodyParser = .ok req) :
    (((c.CreateInvoice ctx w).1 =
          { status := 400,
            body := [("success", JsonValue.bool false),
                     ("message", JsonValue.string "Missing required fields")] } ∧
        (c.CreateInvoice ctx w).2.trace = w.trace) ↔
      (req.UserID = 0 ∨ req.Amount.leZero = true ∨ req.Description = "" ∨
        req.PaymentMethod = "")) ∧
    (¬ (req.UserID = 0 ∨ req.Amount.leZero = true ∨ req.Description = "" ∨
          req.PaymentMethod = "") →
      (c.CreateInvoice ctx w).2.trace =
        w.trace ++ [Event.service (ServiceCall.CreateInvoice req),
          Event.sql (Statement.insertInvoice req.UserID req.Amount req.Description "pending"
            req.PaymentMethod w.now w.now)]) := by
  rw [← missingRequiredFields_iff]
  cases hm : missingRequiredFields req with
  | true =>
    refine ⟨⟨fun _ => rfl, fun _ => ?_⟩, fun h => absurd rfl h⟩
    have hres : c.CreateInvoice ctx w =
        (ErrorResponse StatusBadRequest "Missing required fields", w) := by
      simp only [InvoiceController.CreateInvoice, hparse, hm, if_true]
    rw [hres]
    exact ⟨rfl, rfl⟩
  | false =>
    have htrace := CreateInvoice_service_trace c.service ctx.Context req w
    rw [← CreateInvoice_world c ctx w req hparse hm] at htrace
    refine ⟨⟨fun h => ?_, fun h => by cases h⟩, fun _ => htrace⟩
    have h2 := h.2
    rw [htrace] at h2
    simp at h2

/-- Witness for C5: a request without description is refused, and the sample request
reaches the service once. -/
theorem C5_required_fields_witness :
    (((controllerOver tableDB).CreateInvoice
          (requestWithBody { sampleRequest with Description := "" })
          (worldWithDotenv [] emptyTable)).1 =
        { status := 400,
          body := [("success", JsonValue.bool false),
                   ("message", JsonValue.string "Missing required fields")] } ∧
      ((controllerOver tableDB).CreateInvoice
          (requestWithBody { sampleRequest with Description := "" })
          (worldWithDotenv [] emptyTable)).2.trace = []) ∧
    ((controllerOver tableDB).CreateInvoice (requestWithBody sampleRequest)
        (worldWithDotenv [] emptyTable)).2.trace =
      [Event.service (ServiceCall.CreateInvoice sampleRequest),
        Event.sql (Statement.insertInvoice 123 (⟨201 / 2⟩) "Test invoice" "pending"
          "credit_card" ⟨0⟩ ⟨0⟩)] :=
  ⟨(C5_required_fields (controllerOver tableDB)
      (requestWithBody { sampleRequest with Description := "" })
      (worldWithDotenv [] emptyTable) { sampleRequest with Description := "" } rfl).1.2
      (Or.inr (Or.inr (Or.inl rfl))),
   (C5_required_fields (controllerOver tableDB) (requestWithBody sampleRequest)
      (worldWithDotenv [] emptyTable) sampleRequest rfl).2
      (by simp [sampleRequest, Float64.leZero])⟩

/-- The digit loop succeeds only on decimal digits. -/
theorem atoiDigits_isDigit (cs : List Char) (n m : Nat) (h : atoiDigits cs n = some m) :
    ∀ ch ∈ cs, ch.isDigit = true := by
  induction cs generalizing n with
  | nil => intro ch hch; cases hch
  | cons c rest ih =>
    intro ch hch
    unfold atoiDigits at h
    by_cases hc : c.isDigit = true
    · rw [if_pos hc] at h
      rcases List.mem_cons.mp hch with rfl | hrest
      · exact hc
      · exact ih _ h ch hrest
    · rw [if_neg hc] at h
      cases h

/-- What `Atoi` accepts is a string of one or more decimal digits after an optional
sign: every other string, the empty one included, is one it does not parse. -/
theorem Atoi_ok_digits (s : String) (n : Int) (h : Atoi s = .ok n) :
    ∃ s0 tail, s.data = s0 :: tail ∧
      (if s0 = '-' ∨ s0 = '+' then tail else s0 :: tail) ≠ [] ∧
      ∀ ch ∈ (if s0 = '-' ∨ s0 = '+' then tail else s0 :: tail), ch.isDigit = true := by
  unfold Atoi at h
  split at h
  · cases h
  · rename_i s0 tail hdata
    refine ⟨s0, tail, hdata, ?_⟩
    simp only at h
    generalize (if s0 = '-' ∨ s0 = '+' then tail else s0 :: tail) = digits at h ⊢
    by_cases hne : digits = []
    · simp [hne] at h
    · rw [if_neg hne] at h
      cases hm : atoiDigits digits 0 with
      | none => simp [hm] at h
      | some m => exact ⟨hne, atoiDigits_isDigit _ 0 m hm⟩

/-- C6: for every string that `strconv.Atoi` does not parse as an integer, `GetInvoices`
with that string as the `user_id` query value answers 400 with `success` false and the
message "Invalid user ID", and `GetInvoice` with that string as the `id` route parameter
answers 400 with `success` false and the message "Invalid invoice ID"; each returns
the world as it found it, so neither the service nor the store is reached. -/
theorem C6_invalid_id {σ : Type} (c : InvoiceController σ) (ctx : FiberCtx) (w : World σ)
    (value : String) (hvalue : ∀ n : Int, Atoi value ≠ .ok n) :
    c.GetInvoices (ctx.withUserIDQuery value) w =
        ({ status := 400,
           body := [("success", JsonValue.bool false),
                    ("message", JsonValue.string "Invalid user ID")] }, w) ∧
    c.GetInvoice (ctx.withIDParam value) w =
        ({ status := 400,
           body := [("success", JsonValue.bool false),
                    ("message", JsonValue.string "Invalid invoice ID")] }, w) := by
  cases hparse : Atoi value with
  | ok n => exact absurd hparse (hvalue n)
  | error err =>
    constructor
    · have hq : (ctx.withUserIDQuery value).Query "user_id" = value := by
        simp [FiberCtx.withUserIDQuery]
      simp only [InvoiceController.GetInvoices, hq, hparse]
      rfl
    · have hp : (ctx.withIDParam value).Params "id" = value := by
        simp [FiberCtx.withIDParam]
      simp only [InvoiceController.GetInvoice, hp, hparse]
      rfl

/-- Witness for C6: the empty string. -/
theorem C6_invalid_id_witness :
    (∀ n : Int, Atoi "" ≠ .ok n) ∧
    (controllerOver tableDB).GetInvoices ((requestWith "" "1" "1").withUserIDQuery "")
        (worldWithDotenv [] sampleTable) =
        ({ status := 400,
           body := [("success", JsonValue.bool false),
                    ("message", JsonValue.string "Invalid user ID")] },
         worldWithDotenv [] sampleTable) ∧
    (controllerOver tableDB).GetInvoice ((requestWith "" "1" "1").withIDParam "")
        (worldWithDotenv [] sampleTable) =
        ({ status := 400,
           body := [("success", JsonValue.bool false),
                    ("message", JsonValue.string "Invalid invoice ID")] },
         worldWithDotenv [] sampleTable) :=
  ⟨fun _ h => Except.noConfusion h,
   C6_invalid_id (controllerOver tableDB) (requestWith "" "1" "1")
     (worldWithDotenv [] sampleTable) "" (fun _ h => Except.noConfusion h)⟩

/-- C7: for every id that the route parameter parses to, `GetInvoice` answers 404 with
`success` false and the message "Invoice not found" whatever error the service's
`GetInvoiceByID` returns, and 200 with `success` true and `data` the invoice when the
service returns one. -/
theorem C7_get_invoice {σ : Type} (c : InvoiceController σ) (ctx : FiberCtx) (w : World σ)
    (id : Int) (hid : Atoi (ctx.Params "id") = .ok id) :
    (∀ e : Error, (c.service.GetInvoiceByID ctx.Context id w).1 = .error e →
      (c.GetInvoice ctx w).1 =
        { status := 404,
          body := [("success", JsonValue.bool false),
                   ("message", JsonValue.string "Invoice not found")] }) ∧
    (∀ inv : Invoice, (c.service.GetInvoiceByID ctx.Context id w).1 = .ok inv →
      (c.GetInvoice ctx w).1 =
        { status := 200,
          body := [("success", JsonValue.bool true), ("data", JsonValue.invoice inv)] }) := by
  constructor
  · intro e he
    simp only [InvoiceController.GetInvoice, hid, he]
    rfl
  · intro inv hinv
    simp only [InvoiceController.GetInvoice, hid, hinv]
    rfl

/-- Witness for C7: on the sample table, invoice 999 is absent and invoice 2 is present. -/
theorem C7_get_invoice_witness :
    ((controllerOver tableDB).GetInvoice (requestWith "" "" "999")
        (worldWithDotenv [] sampleTable)).1 =
      { status := 404,
        body := [("success", JsonValue.bool false),
                 ("message", JsonValue.string "Invoice not found")] } ∧
    ((controllerOver tableDB).GetInvoice (requestWith "" "" "2")
        (worldWithDotenv [] sampleTable)).1 =
      { status := 200,
        body := [("success", JsonValue.bool true),
                 ("data", JsonValue.invoice
                    { ID := 2, UserID := 7, Amount := ⟨5⟩, Description := "Other",
                      Status := "paid", PaymentMethod := "cash", CreatedAt := ⟨20⟩,
                      UpdatedAt := ⟨25⟩ })] } :=
  ⟨(C7_get_invoice (controllerOver tableDB) (requestWith "" "" "999")
      (worldWithDotenv [] sampleTable) 999 rfl).1 ErrNoRows rfl,
   (C7_get_invoice (controllerOver tableDB) (requestWith "" "" "2")
      (worldWithDotenv [] sampleTable) 2 rfl).2 _ rfl⟩

/-- The elements of `append(s, x)`. -/
theorem Slice.toList_append {α : Type} (s : Slice α) (x : α) :
    (s.append x).toList = s.toList ++ [x] := by
  cases s <;> rfl

/-- The scan loop over rows that come from stored rows: every row decodes, and the
records are appended to the list in the order of the rows. -/
theorem scanRows_stored (rows : List StoredRow) (invoices : Slice Invoice) :
    ∃ s : Slice Invoice,
      scanRows (rows.map (fun r => Except.ok (selectColumns r))) invoices = .ok s ∧
      s.toList = invoices.toList ++ rows.map StoredRow.toInvoice ∧
      (rows = [] → s = invoices) := by
  induction rows generalizing invoices with
  | nil => exact ⟨invoices, rfl, by simp, fun _ => rfl⟩
  | cons r rest ih =>
    obtain ⟨s, hs, hlist, _⟩ := ih (invoices.append r.toInvoice)
    refine ⟨s, ?_, ?_, fun h => by cases h⟩
    · simpa [scanRows, scanInvoice, selectColumns, StoredRow.toInvoice] using hs
    · rw [hlist, Slice.toList_append]
      simp

/-- What `GetByUserID` returns over the table store: the scan loop run on the rows of
the user, starting from the nil slice. -/
theorem GetByUserID_table (ctx : Context) (userID : Int) (w : World Table) :
    ((InvoiceRepository.mk tableDB).GetByUserID ctx userID w).1 =
      scanRows ((w.store.rows.filter (fun r => r.user_id = userID)).map
        (fun r => Except.ok (selectColumns r))) Slice.nil := rfl

/-- C9 (as stated, refuted): on the sample table user 999 owns no invoice; listing
answers 200 with `success` true, and the `data` member is JSON `null`, not an empty
array. -/
theorem C9_counterexample :
    ((controllerOver tableDB).GetInvoices (requestWith "" "999" "")
        (worldWithDotenv [] sampleTable)).1 =
      { status := 200, body := [("success", JsonValue.bool true), ("data", JsonValue.null)] } ∧
    ((controllerOver tableDB).GetInvoices (requestWith "" "999" "")
        (worldWithDotenv [] sampleTable)).1.member "data" ≠ some (JsonValue.invoices []) :=
  ⟨rfl, fun h => Option.noConfusion h (fun h1 => JsonValue.noConfusion h1)⟩

/-- C9 (amended): for every user id that owns no invoice in the store, `GetByUserID`
succeeds with the nil list, and `GetInvoices` answers 200 with `success` true and a
`data` member that is present and is JSON `null`. -/
theorem C9_empty_listing (ctx : FiberCtx) (userID : Int) (w : World Table)
    (hid : Atoi (ctx.Query "user_id") = .ok userID)
    (hnone : ∀ r ∈ w.store.rows, r.user_id ≠ userID) :
    ((InvoiceRepository.mk tableDB).GetByUserID ctx.Context userID w).1 = .ok Slice.nil ∧
    ((controllerOver tableDB).GetInvoices ctx w).1 =
      { status := 200, body := [("success", JsonValue.bool true), ("data", JsonValue.null)] } := by
  have hfilter : w.store.rows.filter (fun r => r.user_id = userID) = [] := by
    rw [List.filter_eq_nil_iff]
    intro r hr
    simpa using hnone r hr
  have hrepo : ∀ w1 : World Table, w1.store = w.store →
      ((InvoiceRepository.mk tableDB).GetByUserID ctx.Context userID w1).1 = .ok Slice.nil := by
    intro w1 hstore
    rw [GetByUserID_table, hstore, hfilter]
    rfl
  refine ⟨hrepo w rfl, ?_⟩
  have hservice : ((controllerOver tableDB).service.GetInvoicesByUserID ctx.Context userID w).1
      = .ok Slice.nil := hrepo _ rfl
  simp only [InvoiceController.GetInvoices, hid, hservice]
  rfl

/-- Witness for C9 (amended): user 5 on the empty table. -/
theorem C9_empty_listing_witness :
    Atoi ((requestWith "" "5" "").Query "user_id") = .ok 5 ∧
    (∀ r ∈ (worldWithDotenv [] emptyTable).store.rows, r.user_id ≠ 5) ∧
    ((InvoiceRepository.mk tableDB).GetByUserID (requestWith "" "5" "").Context 5
        (worldWithDotenv [] emptyTable)).1 = .ok Slice.nil ∧
    ((controllerOver tableDB).GetInvoices (requestWith "" "5" "")
        (worldWithDotenv [] emptyTable)).1 =
      { status := 200, body := [("success", JsonValue.bool true), ("data", JsonValue.null)] } :=
  ⟨rfl, fun r hr => absurd hr (List.not_mem_nil r),
   C9_empty_listing (requestWith "" "5" "") 5 (worldWithDotenv [] emptyTable) rfl
     (fun r hr => absurd hr (List.not_mem_nil r))⟩

/-- C10: for every state of the table store and every user id, `GetByUserID` succeeds,
and the list it returns holds exactly the records of the rows whose `user_id` is that
id: one record per row, in the order of the store, each with the eight columns of its
row; so there are as many records as the user has rows, and each has that user id. -/
theorem C10_list_by_user (ctx : Context) (userID : Int) (w : World Table) :
    ∃ s : Slice Invoice,
      ((InvoiceRepository.mk tableDB).GetByUserID ctx userID w).1 = .ok s ∧
      s.toList =
        (w.store.rows.filter (fun r => r.user_id = userID)).map StoredRow.toInvoice ∧
      s.toList.length = (w.store.rows.filter (fun r => r.user_id = userID)).length ∧
      ∀ inv ∈ s.toList, inv.UserID = userID := by
  obtain ⟨s, hs, hlist, _⟩ :=
    scanRows_stored (w.store.rows.filter (fun r => r.user_id = userID)) Slice.nil
  have hlist2 : s.toList =
      (w.store.rows.filter (fun r => r.user_id = userID)).map StoredRow.toInvoice := by
    rw [hlist]
    rfl
  refine ⟨s, ?_, hlist2, ?_, ?_⟩
  · rw [GetByUserID_table]
    exact hs
  · rw [hlist2, List.length_map]
  · intro inv hinv
    rw [hlist2, List.mem_map] at hinv
    obtain ⟨r, hr, rfl⟩ := hinv
    have := (List.mem_filter.mp hr).2
    simpa [StoredRow.toInvoice] using this

/-! ## Creating an invoice and reading it back -/

/-- Over the table store, `Create` goes through when the next value of the identifier
sequence is not taken: it returns the record of the created row, and the row is added
at the end of the table. -/
theorem Create_table_fresh (ctx : Context) (req : CreateInvoiceRequest) (w : World Table)
    (hfresh : ∀ x ∈ w.store.rows, x.id ≠ w.store.nextID) :
    (InvoiceRepository.mk tableDB).Create ctx req w =
      (.ok (createdRow w.store.nextID req w.now).toInvoice,
       { w with
         store := { rows := w.store.rows ++ [createdRow w.store.nextID req w.now],
                    nextID := w.store.nextID + 1 }
         trace := w.trace ++ [Event.sql (Statement.insertInvoice req.UserID req.Amount
           req.Description "pending" req.PaymentMethod w.now w.now)] }) := by
  have hany : w.store.rows.any (fun r => decide (r.id = w.store.nextID)) = false := by
    rw [Bool.eq_false_iff]
    intro h
    obtain ⟨x, hx, hid⟩ := List.any_eq_true.mp h
    exact hfresh x hx (of_decide_eq_true hid)
  simp only [InvoiceRepository.Create, tableDB, Table.exec, hany]
  rfl

/-- Over the table store, `Create` fails when the next value of the identifier sequence
is taken, and no row is added. -/
theorem Create_table_taken (ctx : Context) (req : CreateInvoiceRequest) (w : World Table)
    (htaken : ∃ x ∈ w.store.rows, x.id = w.store.nextID) :
    ((InvoiceRepository.mk tableDB).Create ctx req w).1 = .error ErrDuplicateKey ∧
    ((InvoiceRepository.mk tableDB).Create ctx req w).2.store.rows = w.store.rows := by
  have hany : w.store.rows.any (fun r => decide (r.id = w.store.nextID)) = true := by
    obtain ⟨x, hx, hid⟩ := htaken
    exact List.any_eq_true.mpr ⟨x, hx, decide_eq_true hid⟩
  simp only [InvoiceRepository.Create, tableDB, Table.exec, hany]
  exact ⟨rfl, rfl⟩

/-- When `Create` succeeds over the table store, the next value of the identifier
sequence was not taken. -/
theorem Create_table_ok_fresh (ctx : Context) (req : CreateInvoiceRequest) (w : World Table)
    (inv : Invoice) (hcreate : ((InvoiceRepository.mk tableDB).Create ctx req w).1 = .ok inv) :
    ∀ x ∈ w.store.rows, x.id ≠ w.store.nextID := by
  intro x hx hid
  have h := (Create_table_taken ctx req w ⟨x, hx, hid⟩).1
  rw [h] at hcreate
  cases hcreate

/-- Over the table store, `GetByID` returns the record of the first row that carries
the identifier. -/
theorem GetByID_table (ctx : Context) (id : Int) (w : World Table) :
    ((InvoiceRepository.mk tableDB).GetByID ctx id w).1 =
      match w.store.rows.filter (fun r => r.id = id) with
      | [] => .error ErrNoRows
      | r :: _ => .ok r.toInvoice := by
  simp only [InvoiceRepository.GetByID, tableDB, Table.exec]
  cases w.store.rows.filter (fun r => r.id = id) <;> rfl

/-- C11: for every state of the table store and every creation request, if `Create`
succeeds with an invoice, then `GetByID` with that invoice's identifier on the
resulting store succeeds and returns that same invoice; its user id, amount,
description and payment method are those of the request and its status is "pending". -/
theorem C11_create_then_get (ctx ctx2 : Context) (req : CreateInvoiceRequest) (w : World Table)
    (inv : Invoice)
    (hcreate : ((InvoiceRepository.mk tableDB).Create ctx req w).1 = .ok inv) :
    ((InvoiceRepository.mk tableDB).GetByID ctx2 inv.ID
        ((InvoiceRepository.mk tableDB).Create ctx req w).2).1 = .ok inv ∧
    inv.UserID = req.UserID ∧ inv.Amount = req.Amount ∧ inv.Description = req.Description ∧
    inv.PaymentMethod = req.PaymentMethod ∧ inv.Status = "pending" := by
  have hfresh := Create_table_ok_fresh ctx req w inv hcreate
  rw [Create_table_fresh ctx req w hfresh] at hcreate ⊢
  have hinv : (createdRow w.store.nextID req w.now).toInvoice = inv := by
    injection hcreate
  subst hinv
  refine ⟨?_, rfl, rfl, rfl, rfl, rfl⟩
  rw [GetByID_table]
  have hold : w.store.rows.filter (fun r => decide (r.id = w.store.nextID)) = [] := by
    rw [List.filter_eq_nil_iff]
    intro x hx
    simpa using hfresh x hx
  have hfilter :
      (w.store.rows ++ [createdRow w.store.nextID req w.now]).filter
        (fun r => decide (r.id = w.store.nextID)) = [createdRow w.store.nextID req w.now] := by
    rw [List.filter_append, hold]
    simp [createdRow]
  simp only [StoredRow.toInvoice, createdRow] at hfilter ⊢
  rw [hfilter]

/-- Witness for C11: the sample request created on the sample table gets identifier 4
and is read back. -/
theorem C11_create_then_get_witness :
    ((InvoiceRepository.mk tableDB).GetByID { Err := none } 4
        ((InvoiceRepository.mk tableDB).Create { Err := none } sampleRequest
          (worldWithDotenv [] sampleTable)).2).1
      = .ok { ID := 4, UserID := 123, Amount := ⟨201 / 2⟩, Description := "Test invoice",
              Status := "pending", PaymentMethod := "credit_card", CreatedAt := ⟨0⟩,
              UpdatedAt := ⟨0⟩ } :=
  (C11_create_then_get { Err := none } { Err := none } sampleRequest
    (worldWithDotenv [] sampleTable)
    { ID := 4, UserID := 123, Amount := ⟨201 / 2⟩, Description := "Test invoice",
      Status := "pending", PaymentMethod := "credit_card", CreatedAt := ⟨0⟩,
      UpdatedAt := ⟨0⟩ } rfl).1

/-- C12: for every creation request on a table store whose next identifier is not taken
(so that the insert goes through), `Create` sends the one statement
`INSERT ... VALUES (user id, amount, description, 'pending', payment method, now, now)`,
the table gains exactly one row, at its end, with status "pending", `created_at` and
`updated_at` both the one clock reading, and user id, amount, description and payment
method those of the request; the record `Create` returns is that row, identifier
included, the identifier being the one the store assigned. -/
theorem C12_created_row (ctx : Context) (req : CreateInvoiceRequest) (w : World Table)
    (hfresh : ∀ x ∈ w.store.rows, x.id ≠ w.store.nextID) :
    ((InvoiceRepository.mk tableDB).Create ctx req w).2.trace =
      w.trace ++ [Event.sql (Statement.insertInvoice req.UserID req.Amount req.Description
        "pending" req.PaymentMethod w.now w.now)] ∧
    ∃ row : StoredRow,
      ((InvoiceRepository.mk tableDB).Create ctx req w).2.store.rows = w.store.rows ++ [row] ∧
      row.status = "pending" ∧ row.created_at = w.now ∧ row.updated_at = w.now ∧
      row.created_at = row.updated_at ∧
      row.user_id = req.UserID ∧ row.amount = req.Amount ∧
      row.description = req.Description ∧ row.payment_method = req.PaymentMethod ∧
      row.id = w.store.nextID ∧
      ((InvoiceRepository.mk tableDB).Create ctx req w).1 =
        .ok { ID := row.id, UserID := row.user_id, Amount := row.amount,
              Description := row.description, Status := row.status,
              PaymentMethod := row.payment_method, CreatedAt := row.created_at,
              UpdatedAt := row.updated_at } := by
  rw [Create_table_fresh ctx req w hfresh]
  exact ⟨rfl, createdRow w.store.nextID req w.now, rfl, rfl, rfl, rfl, rfl, rfl, rfl, rfl, rfl,
    rfl, rfl⟩

/-- Witness for C12: the sample request on the empty table, whose sequence stands at 1. -/
theorem C12_created_row_witness :
    (∀ x ∈ (worldWithDotenv [] emptyTable).store.rows,
      x.id ≠ (worldWithDotenv [] emptyTable).store.nextID) ∧
    ((InvoiceRepository.mk tableDB).Create { Err := none } sampleRequest
        (worldWithDotenv [] emptyTable)).2.trace =
      [Event.sql (Statement.insertInvoice 123 ⟨201 / 2⟩ "Test invoice" "pending" "credit_card"
        ⟨0⟩ ⟨0⟩)] :=
  ⟨fun x hx => absurd hx (List.not_mem_nil x),
   (C12_created_row { Err := none } sampleRequest (worldWithDotenv [] emptyTable)
      (fun x hx => absurd hx (List.not_mem_nil x))).1⟩

/-- C13: for a body that parses to `req`, passes the field check, and for which the
service returns the invoice `inv`, `CreateInvoice` answers 201 with `success` true and
`data` the invoice `inv` as returned (identifier, status and timestamps included); the
one call it makes of the service carries the parsed request unchanged, and the one
statement that call sends carries its user id, amount, description and payment
method. -/
theorem C13_created_response {σ : Type} (c : InvoiceController σ) (ctx : FiberCtx)
    (w : World σ) (req : CreateInvoiceRequest) (inv : Invoice)
    (hparse : ctx.BodyParser = .ok req)
    (hfields : ¬ (req.UserID = 0 ∨ req.Amount.leZero = true ∨ req.Description = "" ∨
      req.PaymentMethod = ""))
    (hservice : (c.service.CreateInvoice ctx.Context req w).1 = .ok inv) :
    (c.CreateInvoice ctx w).1 =
      { status := 201,
        body := [("success", JsonValue.bool true), ("data", JsonValue.invoice inv)] } ∧
    (c.CreateInvoice ctx w).2.trace =
      w.trace ++ [Event.service (ServiceCall.CreateInvoice req),
        Event.sql (Statement.insertInvoice req.UserID req.Amount req.Description "pending"
          req.PaymentMethod w.now w.now)] := by
  have hm : missingRequiredFields req = false := by
    rw [← missingRequiredFields_iff] at hfields
    simpa using hfields
  constructor
  · simp only [InvoiceController.CreateInvoice, hparse, hm, hservice]
    rfl
  · rw [CreateInvoice_world c ctx w req hparse hm]
    exact CreateInvoice_service_trace c.service ctx.Context req w

/-- Witness for C13: the sample request over the empty table. -/
theorem C13_created_response_witness :
    ((controllerOver tableDB).CreateInvoice (requestWithBody sampleRequest)
        (worldWithDotenv [] emptyTable)).1 =
      { status := 201,
        body := [("success", JsonValue.bool true),
                 ("data", JsonValue.invoice
                    { ID := 1, UserID := 123, Amount := ⟨201 / 2⟩,
                      Description := "Test invoice", Status := "pending",
                      PaymentMethod := "credit_card", CreatedAt := ⟨0⟩,
                      UpdatedAt := ⟨0⟩ })] } :=
  (C13_created_response (controllerOver tableDB) (requestWithBody sampleRequest)
    (worldWithDotenv [] emptyTable) sampleRequest
    { ID := 1, UserID := 123, Amount := ⟨201 / 2⟩, Description := "Test invoice",
      Status := "pending", PaymentMethod := "credit_card", CreatedAt := ⟨0⟩,
      UpdatedAt := ⟨0⟩ }
    rfl (by simp [sampleRequest, Float64.leZero]) rfl).1

/-! ## The response envelope -/

/-- Every success response is an envelope: `data` is present. -/
theorem SuccessResponse_envelope (status : Nat) (data : Payload) :
    IsEnvelope (SuccessResponse status data) :=
  ⟨true, rfl, fun _ => ⟨data.toJSON, rfl⟩, fun h => by cases h⟩

/-- An error response with a non-empty message is an envelope: `message` is present. -/
theorem ErrorResponse_envelope (status : Nat) (message : String) (hmessage : message ≠ "") :
    IsEnvelope (ErrorResponse status message) := by
  refine ⟨false, ?_, fun h => Bool.noConfusion h, fun _ => ⟨message, ?_⟩⟩
  · simp only [ErrorResponse, HttpResponse.member, Response.toJSON, hmessage, if_false]
    rfl
  · simp only [ErrorResponse, HttpResponse.member, Response.toJSON, hmessage, if_false]
    rfl

/-- An error response with the empty message has `success` as its only member. -/
theorem ErrorResponse_bare (status : Nat) : IsBareFailure (ErrorResponse status "") := rfl

/-- An error response is an envelope, or the bare failure when its message is empty. -/
theorem ErrorResponse_envelope_or_bare (status : Nat) (message : String) :
    IsEnvelope (ErrorResponse status message) ∨ IsBareFailure (ErrorResponse status message) := by
  by_cases hmessage : message = ""
  · subst hmessage
    exact Or.inr (ErrorResponse_bare status)
  · exact Or.inl (ErrorResponse_envelope status message hmessage)

/-- Every response of the three controller methods is an envelope, except that a 500
whose error message is empty carries `success` alone. -/
theorem handler_envelope {σ : Type} (ic : InvoiceController σ) (h : Handler) (ctx : FiberCtx)
    (w : World σ) :
    IsEnvelope (ic.run h ctx w).1 ∨
      ((ic.run h ctx w).1.status = 500 ∧ IsBareFailure (ic.run h ctx w).1) := by
  cases h with
  | GetInvoices =>
    simp only [InvoiceController.run, InvoiceController.GetInvoices]
    cases Atoi (ctx.Query "user_id") with
    | error _ => exact Or.inl (ErrorResponse_envelope _ _ (by decide))
    | ok userID =>
      simp only
      cases (ic.service.GetInvoicesByUserID ctx.Context userID w).1 with
      | error err =>
        rcases ErrorResponse_envelope_or_bare StatusInternalServerError err.msg with he | hb
        · exact Or.inl he
        · exact Or.inr ⟨rfl, hb⟩
      | ok invoices => exact Or.inl (SuccessResponse_envelope _ _)
  | GetInvoice =>
    simp only [InvoiceController.run, InvoiceController.GetInvoice]
    cases Atoi (ctx.Params "id") with
    | error _ => exact Or.inl (ErrorResponse_envelope _ _ (by decide))
    | ok id =>
      simp only
      cases (ic.service.GetInvoiceByID ctx.Context id w).1 with
      | error err => exact Or.inl (ErrorResponse_envelope _ _ (by decide))
      | ok invoice => exact Or.inl (SuccessResponse_envelope _ _)
  | CreateInvoice =>
    simp only [InvoiceController.run, InvoiceController.CreateInvoice]
    cases ctx.BodyParser with
    | error _ => exact Or.inl (ErrorResponse_envelope _ _ (by decide))
    | ok req =>
      simp only
      cases missingRequiredFields req with
      | true => exact Or.inl (ErrorResponse_envelope _ _ (by decide))
      | false =>
        simp only [Bool.false_eq_true, if_false]
        cases (ic.service.CreateInvoice ctx.Context req w).1 with
        | error err =>
          rcases ErrorResponse_envelope_or_bare StatusInternalServerError err.msg with he | hb
          · exact Or.inl he
          · exact Or.inr ⟨rfl, hb⟩
        | ok invoice => exact Or.inl (SuccessResponse_envelope _ _)

/-- C14 (as stated, refuted): `POST /invoices` without an `Authorization` header, with
the `.env` file loaded, is answered by `AuthMiddleware` with a 401 whose body is the
object with the single member `error`; it has no member `success`, so it is not the
uniform envelope.  And `GetInvoices` over a store that fails with an error of empty
message answers 500 with `success` false alone: `omitempty` drops the member
`message`, so that answer is not the envelope either. -/
theorem C14_counterexample :
    (SetupRoutes (jwtAccepting "good" (bytesOfString "s3cret") []) (controllerOver tableDB)
        Route.postInvoices (requestWith "" "" "") (worldWithDotenv [] emptyTable)).1
      = Outcome.respond
          { status := 401,
            body := [("error", JsonValue.string "Authorization header is required")] } ∧
    ¬ IsEnvelope
        { status := 401,
          body := [("error", JsonValue.string "Authorization header is required")] } ∧
    ((controllerOver silentDB).GetInvoices (requestWith "" "123" "") downWorld).1
      = { status := 500, body := [("success", JsonValue.bool false)] } ∧
    ¬ IsEnvelope { status := 500, body := [("success", JsonValue.bool false)] } := by
  refine ⟨rfl, ?_, rfl, ?_⟩
  · rintro ⟨b, hb, _⟩
    have hnone : HttpResponse.member
        { status := 401,
          body := [("error", JsonValue.string "Authorization header is required")] }
        "success" = none := rfl
    rw [hnone] at hb
    cases hb
  · rintro ⟨b, hb, _, hmessage⟩
    have hsuccess : HttpResponse.member
        { status := 500, body := [("success", JsonValue.bool false)] } "success"
        = some (JsonValue.bool false) := rfl
    rw [hsuccess] at hb
    have hfalse : b = false := by
      injection hb with hb
      injection hb with hb
      exact hb.symm
    obtain ⟨m, hm⟩ := hmessage hfalse
    have hnone : HttpResponse.member
        { status := 500, body := [("success", JsonValue.bool false)] } "message" = none := rfl
    rw [hnone] at hm
    cases hm

/-- C14 (amended): every response written on an invoice route is of one of three
kinds.  The responses of the three handlers are the uniform envelope (a boolean
`success`, `data` present when it is true, `message` present when it is false), except
that a 500 whose error message is the empty string carries `success` false alone; the
rejections issued by `AuthMiddleware` are a 401 whose body is the object with the
single member `error`. -/
theorem C14_route_responses {σ : Type} (jwt : JwtLib) (ic : InvoiceController σ) (route : Route)
    (c : FiberCtx) (w : World σ) (r : HttpResponse)
    (hr : (SetupRoutes jwt ic route c w).1 = Outcome.respond r) :
    IsEnvelope r ∨ (r.status = 500 ∧ IsBareFailure r) ∨
      (r.status = 401 ∧ ∃ m, r.body = [("error", JsonValue.string m)]) := by
  have hdotenv : (∃ err, w.dotenv = .error err) ∨ (∃ file, w.dotenv = .ok file) := by
    cases w.dotenv with
    | error err => exact Or.inl ⟨err, rfl⟩
    | ok file => exact Or.inr ⟨file, rfl⟩
  unfold SetupRoutes at hr
  rcases hdotenv with ⟨err, hfile⟩ | ⟨file, hfile⟩
  · rw [AuthMiddleware_not_loaded jwt c _ w err hfile] at hr
    cases hr
  · rw [AuthMiddleware_loaded jwt c _ w file hfile] at hr
    by_cases hheader : c.Get "Authorization" = ""
    · simp only [hheader, if_true] at hr
      injection hr with hr
      subst hr
      exact Or.inr (Or.inr ⟨rfl, _, rfl⟩)
    · simp only [hheader, if_false] at hr
      split at hr
      · injection hr with hr
        subst hr
        exact Or.inr (Or.inr ⟨rfl, _, rfl⟩)
      · simp only [handlerStep] at hr
        injection hr with hr
        subst hr
        rcases handler_envelope ic route.handler _ _ with he | hb
        · exact Or.inl he
        · exact Or.inr (Or.inl hb)

/-- Witness for C14 (amended): `GET /invoices` with a token the library rejects. -/
theorem C14_route_responses_witness :
    (SetupRoutes (jwtAccepting "good" (bytesOfString "s3cret") []) (controllerOver tableDB)
        Route.getInvoices (requestWith "bad" "123" "") (worldWithDotenv [] sampleTable)).1
      = Outcome.respond
          { status := 401,
            body := [("error", JsonValue.string
              "Invalid token: error parsing token: token signature is invalid")] } ∧
    (IsEnvelope
        { status := 401,
          body := [("error", JsonValue.string
            "Invalid token: error parsing token: token signature is invalid")] } ∨
      ((401 : Nat) = 500 ∧ IsBareFailure
        { status := 401,
          body := [("error", JsonValue.string
            "Invalid token: error parsing token: token signature is invalid")] }) ∨
      ((401 : Nat) = 401 ∧ ∃ m,
        [("error", JsonValue.string
            "Invalid token: error parsing token: token signature is invalid")]
          = [("error", JsonValue.string m)])) :=
  ⟨rfl,
   C14_route_responses (jwtAccepting "good" (bytesOfString "s3cret") []) (controllerOver tableDB)
     Route.getInvoices (requestWith "bad" "123" "") (worldWithDotenv [] sampleTable) _ rfl⟩

/-! ## Failures while listing -/

/-- When the query fails, `GetByUserID` returns that error and no list. -/
theorem GetByUserID_query_error {σ : Type} (r : InvoiceRepository σ) (ctx : Context)
    (userID : Int) (w : World σ) (err : Error)
    (hquery : (r.db.QueryContext ctx (Statement.selectByUserID userID) w.store).1 = .error err) :
    (r.GetByUserID ctx userID w).1 = .error err := by
  simp only [InvoiceRepository.GetByUserID, hquery]

/-- When a delivered row fails to decode, the scan loop ends with an error and no list. -/
theorem scanRows_decode_error (rows : List SqlRow) (invoices : Slice Invoice)
    (hbad : ∃ row ∈ rows, ∃ err, row = Except.error err) :
    ∃ err, scanRows rows invoices = .error err := by
  induction rows generalizing invoices with
  | nil =>
    obtain ⟨row, hrow, _⟩ := hbad
    cases hrow
  | cons first rest ih =>
    cases first with
    | error e => exact ⟨e, rfl⟩
    | ok cols =>
      obtain ⟨row, hrow, err, herr⟩ := hbad
      rcases List.mem_cons.mp hrow with hfirst | hrest
      · rw [herr] at hfirst
        cases hfirst
      · exact ih _ ⟨row, hrest, err, herr⟩

/-- What `rows.Err()` holds after the loop has no part in what `GetByUserID` returns. -/
theorem GetByUserID_ignores_rows_err {σ : Type} (r : InvoiceRepository σ) (ctx : Context)
    (userID : Int) (w : World σ) (rows : Rows)
    (hquery : (r.db.QueryContext ctx (Statement.selectByUserID userID) w.store).1 = .ok rows) :
    (r.GetByUserID ctx userID w).1 = scanRows rows.delivered Slice.nil := by
  simp only [InvoiceRepository.GetByUserID, hquery]

/-- C15 (evaluated where it fails): the cursor delivers one row of user 123 and then
stops early because the context was cancelled (`rows.Err()` holds "context canceled").
`GetByUserID` returns the list of that one record together with a nil error: a
success with the rows read so far. -/
theorem C15_interrupted_listing_succeeds :
    (interruptedDB.QueryContext { Err := some ⟨"context canceled"⟩ }
        (Statement.selectByUserID 123) ()).1.toOption.map (fun rows => rows.err)
      = some (some ⟨"context canceled"⟩) ∧
    ((InvoiceRepository.mk interruptedDB).GetByUserID { Err := some ⟨"context canceled"⟩ } 123
        downWorld).1
      = .ok (Slice.of
          [{ ID := 1, UserID := 123, Amount := ⟨201 / 2⟩, Description := "Invoice 1",
             Status := "pending", PaymentMethod := "credit_card", CreatedAt := ⟨10⟩,
             UpdatedAt := ⟨10⟩ }]) :=
  ⟨rfl, rfl⟩

/-! ## A body that does not parse -/

/-- C16: for every request whose body does not parse, `CreateInvoice` answers 400 with
the message "Invalid request body" and returns the world as it found it: no field is
looked at (the answer is the same whatever the rest of the request), the service is
not called, and the answer is not the "Missing required fields" one. -/
theorem C16_invalid_body {σ : Type} (c : InvoiceController σ) (ctx : FiberCtx) (w : World σ)
    (err : Error) (hparse : ctx.BodyParser = .error err) :
    c.CreateInvoice ctx w =
      ({ status := 400,
         body := [("success", JsonValue.bool false),
                  ("message", JsonValue.string "Invalid request body")] }, w) ∧
    (c.CreateInvoice ctx w).1 ≠
      { status := 400,
        body := [("success", JsonValue.bool false),
                 ("message", JsonValue.string "Missing required fields")] } := by
  have hres : c.CreateInvoice ctx w =
      ({ status := 400,
         body := [("success", JsonValue.bool false),
                  ("message", JsonValue.string "Invalid request body")] }, w) := by
    simp only [InvoiceController.CreateInvoice, hparse]
    rfl
  rw [hres]
  refine ⟨rfl, ?_⟩
  intro h
  simp at h

/-- Witness for C16: a body cut short, on the sample table. -/
theorem C16_invalid_body_witness :
    (requestWith "" "" "").BodyParser = .error ⟨"unexpected end of JSON input"⟩ ∧
    (controllerOver tableDB).CreateInvoice (requestWith "" "" "")
        (worldWithDotenv [] sampleTable) =
      ({ status := 400,
         body := [("success", JsonValue.bool false),
                  ("message", JsonValue.string "Invalid request body")] },
       worldWithDotenv [] sampleTable) :=
  ⟨rfl,
   (C16_invalid_body (controllerOver tableDB) (requestWith "" "" "")
      (worldWithDotenv [] sampleTable) ⟨"unexpected end of JSON input"⟩ rfl).1⟩

end Billing
